import Mathlib

/-!
Shallow embedding of the SerBin binary serialization library (serbin.h).

Modelling conventions:
* A byte is a `Nat` (always < 256 when produced by the encoders).
* The platform is the one the spec pins in its concrete scenario: native
  `size_t` is 8 bytes, `int` is 4 bytes, `bool` is 1 byte, little-endian.
* The write channel, when all writes succeed, is modelled by encoders that
  return the `List Nat` of bytes written; a write channel that can fail is
  modelled separately by `WriterState` (a capacity-limited sink whose `fail`
  flag mirrors the sticky `badbit` of `std::fstream`).
* The read channel is `ReaderState`: the remaining bytes plus a sticky `fail`
  flag mirroring `failbit` (a short `read` sets it; a failed stream extracts
  nothing afterwards).
* `std::unique_ptr<T>` / `std::shared_ptr<T>` / `std::optional<T>` values are
  `Option`; `std::vector` / `std::list` / `std::deque` are `List`;
  `std::set<int>` is a strictly sorted `List Int` manipulated through
  `setInsert`; `std::map<int,int>` is a key-sorted association list
  manipulated through `mapEmplace` (emplace keeps the existing entry on a
  key collision, as `std::map::emplace` does).
-/

namespace SerBin

/-- Little-endian byte image of a natural number in `w` bytes. This models
the raw memory representation that `stream.write((const char*)&object,
sizeof(T))` copies for a fixed-width scalar (serbin.h lines 55-60). -/
def toLEBytes : Nat → Nat → List Nat
  | 0, _ => []
  | w + 1, n => n % 256 :: toLEBytes w (n / 256)

/-- Value of a little-endian byte list; a short list is read as if padded
with zero bytes (the unread destination bytes of a short `stream.read`). -/
def fromLEBytes : List Nat → Nat
  | [] => 0
  | b :: rest => b + 256 * fromLEBytes rest

/-- Encoding of a C++ `int` (4 bytes, two's complement, little-endian),
as written by the POD `operator<<` (serbin.h lines 55-60). -/
def encInt (i : Int) : List Nat :=
  toLEBytes 4 ((i % (2 ^ 32 : Int)).toNat)

/-- Encoding of a C++ `bool` (1 byte), as written by the POD `operator<<`. -/
def encBool (b : Bool) : List Nat :=
  [if b then 1 else 0]

/-- Encoding of the native `size_t` length field (8 bytes). -/
def encSize (n : Nat) : List Nat :=
  toLEBytes 8 n

/-- State of the read channel: the bytes not yet consumed and the sticky
failure flag of the `std::fstream` (serbin.h lines 29-52). -/
structure ReaderState where
  data : List Nat
  fail : Bool

deriving instance DecidableEq, Repr for ReaderState

/-- Model of `stream.read(buf, n)`: a failed stream extracts nothing; a
read with enough data consumes `n` bytes; a short read hands back what is
available and sets the failure flag, which from then on is never cleared. -/
def readBytes (n : Nat) (st : ReaderState) : List Nat × ReaderState :=
  if st.fail then ([], st)
  else if n ≤ st.data.length then (st.data.take n, ⟨st.data.drop n, false⟩)
  else (st.data, ⟨[], true⟩)

/-- Decode a `w`-byte unsigned scalar (POD `operator>>`, serbin.h lines 62-67). -/
def decNat (w : Nat) (st : ReaderState) : Nat × ReaderState :=
  let r := readBytes w st
  (fromLEBytes r.1, r.2)

/-- Decode the native `size_t` length field. -/
def decSize : ReaderState → Nat × ReaderState :=
  decNat 8

/-- Decode a C++ `bool`: one byte, nonzero meaning `true`. -/
def decBool (st : ReaderState) : Bool × ReaderState :=
  let r := readBytes 1 st
  (decide (fromLEBytes r.1 ≠ 0), r.2)

/-- Reinterpret a 4-byte unsigned value as a two's-complement `int`. -/
def intOfNat32 (n : Nat) : Int :=
  if n < 2 ^ 31 then (n : Int) else (n : Int) - 2 ^ 32

/-- Decode a C++ `int` (POD `operator>>`, serbin.h lines 62-67). -/
def decInt (st : ReaderState) : Int × ReaderState :=
  let r := decNat 4 st
  (intOfNat32 r.1, r.2)

theorem toLEBytes_length (w n : Nat) : (toLEBytes w n).length = w := by
  induction w generalizing n with
  | zero => rfl
  | succ w ih => simp [toLEBytes, ih]

theorem fromLEBytes_toLEBytes (w n : Nat) (h : n < 256 ^ w) :
    fromLEBytes (toLEBytes w n) = n := by
  induction w generalizing n with
  | zero =>
    interval_cases n
    rfl
  | succ w ih =>
    have hdiv : n / 256 < 256 ^ w := by
      apply Nat.div_lt_of_lt_mul
      calc n < 256 ^ (w + 1) := h
        _ = 256 * 256 ^ w := by ring
    simp only [toLEBytes, fromLEBytes, ih _ hdiv]
    omega

theorem readBytes_exact (bs rest : List Nat) :
    readBytes bs.length ⟨bs ++ rest, false⟩ = (bs, ⟨rest, false⟩) := by
  simp [readBytes]

/-- Result of running a smart-pointer encode: the bytes written before any
undefined behaviour, and whether the encoder dereferenced a null pointer.
The source (serbin.h lines 70-76 and 93-99) runs `writer << *object`
unconditionally, so a null argument is dereferenced right after the
presence flag is written; that undefined behaviour is recorded in
`derefNull` instead of inventing payload bytes for it. -/
structure PtrWrite where
  bytes : List Nat
  derefNull : Bool

deriving instance DecidableEq, Repr for PtrWrite

/-- Encoder `operator<<(SerBin<out>&, const std::unique_ptr<T>&)`
(serbin.h lines 70-76): writes `bool(object)`, then unconditionally
`writer << *object` — on a null pointer this dereferences null. -/
def encode_unique_ptr (enc : α → List Nat) : Option α → PtrWrite
  | some v => ⟨encBool true ++ enc v, false⟩
  | none => ⟨encBool false, true⟩

/-- Encoder `operator<<(SerBin<out>&, const std::shared_ptr<T>&)`
(serbin.h lines 93-99): same body as the `unique_ptr` overload, including
the unconditional dereference of a null pointer. -/
def encode_shared_ptr (enc : α → List Nat) : Option α → PtrWrite
  | some v => ⟨encBool true ++ enc v, false⟩
  | none => ⟨encBool false, true⟩

/-- Decoder `operator>>(SerBin<in>&, std::unique_ptr<T>&)` (serbin.h lines
78-91): reads the flag; if set, makes a fresh `T` and decodes into it;
otherwise the destination `object` is left untouched. -/
def decode_unique_ptr (dec : ReaderState → α × ReaderState)
    (object : Option α) (st : ReaderState) : Option α × ReaderState :=
  let r := decBool st
  if r.1 then
    let p := dec r.2
    (some p.1, p.2)
  else
    (object, r.2)

/-- Decoder `operator>>(SerBin<in>&, std::shared_ptr<T>&)` (serbin.h lines
101-114): same body as the `unique_ptr` overload. -/
def decode_shared_ptr (dec : ReaderState → α × ReaderState)
    (object : Option α) (st : ReaderState) : Option α × ReaderState :=
  let r := decBool st
  if r.1 then
    let p := dec r.2
    (some p.1, p.2)
  else
    (object, r.2)

/-- Encoder `operator<<(SerBin<out>&, const std::optional<T>&)` (serbin.h
lines 432-442): writes the presence flag, then the payload only if present. -/
def encode_optional (enc : α → List Nat) : Option α → List Nat
  | some v => encBool true ++ enc v
  | none => encBool false

/-- Decoder `operator>>(SerBin<in>&, std::optional<T>&)` (serbin.h lines
444-457): reads the flag; if set, assigns `T()` and decodes into it;
otherwise the destination `object` is left untouched. -/
def decode_optional (dec : ReaderState → α × ReaderState)
    (object : Option α) (st : ReaderState) : Option α × ReaderState :=
  let r := decBool st
  if r.1 then
    let p := dec r.2
    (some p.1, p.2)
  else
    (object, r.2)

/-- Bulk byte run: the contiguous storage of a vector of scalar-eligible
elements is the memory image of element 0, then element 1, and so on, with
no padding between `T` objects in an array; this is what the single
`stream.write((const char*)&object[0], sizeof(T) * object.size())` of the
POD branch copies (serbin.h lines 148-152). -/
def bulkBytes (enc : α → List Nat) : List α → List Nat
  | [] => []
  | x :: xs => enc x ++ bulkBytes enc xs

/-- Encoder `operator<<(SerBin<out>&, const std::vector<T>&)` for a
`serializeAsPOD` element type (serbin.h lines 144-160, `if constexpr`
branch taken): size field, then one bulk write if the vector is nonempty. -/
def encode_vector_pod (enc : α → List Nat) (object : List α) : List Nat :=
  encSize object.length ++ (if object.length > 0 then bulkBytes enc object else [])

/-- Encoder `operator<<(SerBin<out>&, const std::vector<T>&)` for a
non-POD element type (serbin.h lines 144-160, `else` branch): size field,
then each element encoded in iteration order. -/
def encode_vector (enc : α → List Nat) (object : List α) : List Nat :=
  encSize object.length ++ (object.map enc).flatten

/-- Loop of the vector decoder (serbin.h lines 171-181): after `resize(s)`
every one of the `s` slots is decoded into in order, so the result is
exactly the `s` decoded values (the POD bulk read fills the same slots
byte-for-byte; a short read leaves the value-initialized zero bytes, which
is what `fromLEBytes` of a short list yields). -/
def decodeLoop (dec : ReaderState → α × ReaderState) :
    Nat → ReaderState → List α × ReaderState
  | 0, st => ([], st)
  | n + 1, st =>
    let p := dec st
    let rest := decodeLoop dec n p.2
    (p.1 :: rest.1, rest.2)

/-- Decoder `operator>>(SerBin<in>&, std::vector<T>&)` (serbin.h lines
162-184): reads the count; if it is 0, returns with the destination
untouched; otherwise resizes to `s` and decodes the `s` elements. -/
def decode_vector (dec : ReaderState → α × ReaderState)
    (object : List α) (st : ReaderState) : List α × ReaderState :=
  let r := decSize st
  if r.1 = 0 then (object, r.2)
  else decodeLoop dec r.1 r.2

/-- Loop of the list/deque decoders (serbin.h lines 243-247 and 270-274):
`s` times, push a default `T` and decode into `object.back()`, i.e. append
the decoded value to the existing contents. -/
def listLoop (dec : ReaderState → α × ReaderState) :
    Nat → List α → ReaderState → List α × ReaderState
  | 0, object, st => (object, st)
  | n + 1, object, st =>
    let p := dec st
    listLoop dec n (object ++ [p.1]) p.2

/-- Encoder `operator<<(SerBin<out>&, const std::list<T>&)` (serbin.h
lines 226-235): size field, then each element in iteration order. -/
def encode_list (enc : α → List Nat) (object : List α) : List Nat :=
  encSize object.length ++ (object.map enc).flatten

/-- Decoder `operator>>(SerBin<in>&, std::list<T>&)` (serbin.h lines
237-250): reads the count and appends that many decoded elements; the
destination is never cleared. -/
def decode_list (dec : ReaderState → α × ReaderState)
    (object : List α) (st : ReaderState) : List α × ReaderState :=
  let r := decSize st
  listLoop dec r.1 object r.2

/-- Encoder `operator<<(SerBin<out>&, const std::deque<T>&)` (serbin.h
lines 253-262): identical layout to the list encoder. -/
def encode_deque (enc : α → List Nat) (object : List α) : List Nat :=
  encSize object.length ++ (object.map enc).flatten

/-- Decoder `operator>>(SerBin<in>&, std::deque<T>&)` (serbin.h lines
264-277): same body as the list decoder. -/
def decode_deque (dec : ReaderState → α × ReaderState)
    (object : List α) (st : ReaderState) : List α × ReaderState :=
  let r := decSize st
  listLoop dec r.1 object r.2

/-- Model of `std::set<int>::insert` on the sorted element list: keeps the
list strictly sorted and does nothing when the element is already present. -/
def setInsert (v : Int) : List Int → List Int
  | [] => [v]
  | x :: xs =>
    if v < x then v :: x :: xs
    else if v = x then x :: xs
    else x :: setInsert v xs

/-- Loop of the set decoder (serbin.h lines 297-302): `s` times, decode a
value and `insert` it into the existing contents. -/
def setLoop (dec : ReaderState → Int × ReaderState) :
    Nat → List Int → ReaderState → List Int × ReaderState
  | 0, object, st => (object, st)
  | n + 1, object, st =>
    let p := dec st
    setLoop dec n (setInsert p.1 object) p.2

/-- Encoder `operator<<(SerBin<out>&, const std::set<T>&)` (serbin.h lines
280-289): size field, then each element in (sorted) iteration order. -/
def encode_set (enc : Int → List Nat) (object : List Int) : List Nat :=
  encSize object.length ++ (object.map enc).flatten

/-- Decoder `operator>>(SerBin<in>&, std::set<T>&)` (serbin.h lines
291-305): reads the count and inserts that many decoded values; the
destination is never cleared. -/
def decode_set (dec : ReaderState → Int × ReaderState)
    (object : List Int) (st : ReaderState) : List Int × ReaderState :=
  let r := decSize st
  setLoop dec r.1 object r.2

/-- Encoder `operator<<(SerBin<out>&, const std::pair<T0,T1>&)` (serbin.h
lines 336-341): first member then second member, nothing in between. -/
def encode_pair (e0 : α → List Nat) (e1 : β → List Nat) (object : α × β) : List Nat :=
  e0 object.1 ++ e1 object.2

/-- Decoder `operator>>(SerBin<in>&, std::pair<T0,T1>&)` (serbin.h lines
343-348): first member then second member. -/
def decode_pair (d0 : ReaderState → α × ReaderState)
    (d1 : ReaderState → β × ReaderState) (st : ReaderState) :
    (α × β) × ReaderState :=
  let p := d0 st
  let q := d1 p.2
  ((p.1, q.1), q.2)

/-- Model of `std::map<int,int>::emplace` on the key-sorted association
list: inserts the pair at its key position, and keeps the existing entry
untouched when the key is already present (emplace does not overwrite). -/
def mapEmplace (kv : Int × Int) : List (Int × Int) → List (Int × Int)
  | [] => [kv]
  | x :: xs =>
    if kv.1 < x.1 then kv :: x :: xs
    else if kv.1 = x.1 then x :: xs
    else x :: mapEmplace kv xs

/-- Loop of the map decoder (serbin.h lines 368-373): `s` times, decode a
`std::pair<K,V>` and `emplace` it into the existing contents. -/
def mapLoop (dec : ReaderState → (Int × Int) × ReaderState) :
    Nat → List (Int × Int) → ReaderState → List (Int × Int) × ReaderState
  | 0, object, st => (object, st)
  | n + 1, object, st =>
    let p := dec st
    mapLoop dec n (mapEmplace p.1 object) p.2

/-- Encoder `operator<<(SerBin<out>&, const std::map<K,V>&)` (serbin.h
lines 351-360): size field, then each key/value pair in iteration order. -/
def encode_map (enc : Int × Int → List Nat) (object : List (Int × Int)) : List Nat :=
  encSize object.length ++ (object.map enc).flatten

/-- Decoder `operator>>(SerBin<in>&, std::map<K,V>&)` (serbin.h lines
362-376): reads the count and emplaces that many decoded pairs; the
destination is never cleared. -/
def decode_map (dec : ReaderState → (Int × Int) × ReaderState)
    (object : List (Int × Int)) (st : ReaderState) :
    List (Int × Int) × ReaderState :=
  let r := decSize st
  mapLoop dec r.1 object r.2

/-- Encoder `operator<<(SerBin<out>&, const std::basic_string<T>&)`
(serbin.h lines 117-126): size field, then one bulk write of the
`size() * sizeof(T)` code-unit bytes if the string is nonempty; `w` is
`sizeof(T)` and a string is its list of code-unit values. -/
def encode_string (w : Nat) (object : List Nat) : List Nat :=
  encSize object.length ++ (if object.length > 0 then bulkBytes (toLEBytes w) object else [])

/-- Decoder `operator>>(SerBin<in>&, std::basic_string<T>&)` (serbin.h
lines 128-141): reads the size; if it is 0 the destination is untouched,
otherwise the string is resized and the `s * sizeof(T)` bytes are read
into its `s` code units (modelled code unit by code unit). -/
def decode_string (w : Nat) (object : List Nat) (st : ReaderState) :
    List Nat × ReaderState :=
  let r := decSize st
  if r.1 = 0 then (object, r.2)
  else decodeLoop (decNat w) r.1 r.2

/-- Recursion of the tuple encoder `operator<<<id>(SerBin<out>&, const
std::tuple<Ts...>&)` (serbin.h lines 407-417): `slots` is the list of the
per-slot encodings (slot `i`'s bytes at position `i`); while the
compile-time index is below the slot count the current slot is written and
the index advances by one, and the recursion stops at the slot count. -/
def tupleWriteAux (slots : List (List Nat)) (id : Nat) : List Nat :=
  if h : id < slots.length then slots[id] ++ tupleWriteAux slots (id + 1) else []
termination_by slots.length - id

/-- Encoder entry point for `std::tuple` (default template argument
`id = 0`). -/
def encode_tuple (slots : List (List Nat)) : List Nat :=
  tupleWriteAux slots 0

/-- Recursion of the tuple decoder `operator>><id>(SerBin<in>&,
std::tuple<Ts...>&)` (serbin.h lines 419-429): `slots` is the list of the
per-slot decoding actions on the channel state; slot `id` runs before the
recursion continues at `id + 1`, stopping at the slot count. -/
def tupleReadAux (slots : List (ReaderState → ReaderState)) (id : Nat)
    (st : ReaderState) : ReaderState :=
  if h : id < slots.length then tupleReadAux slots (id + 1) (slots[id] st) else st
termination_by slots.length - id

/-- Decoder entry point for `std::tuple` (default template argument
`id = 0`). -/
def decode_tuple (slots : List (ReaderState → ReaderState)) (st : ReaderState) :
    ReaderState :=
  tupleReadAux slots 0 st

/-- State of a write channel that can fail: the bytes accepted so far, the
number of bytes the sink can accept in total, and the sticky failure flag
(`badbit` of the `std::fstream`). -/
structure WriterState where
  out : List Nat
  cap : Nat
  fail : Bool

deriving instance DecidableEq, Repr for WriterState

/-- Model of `stream.write(buf, n)` on a fallible sink: a failed stream
accepts nothing; a write beyond the sink's capacity fails and sets the
flag, which is never cleared afterwards. -/
def writeBytesW (bs : List Nat) (st : WriterState) : WriterState :=
  if st.fail then st
  else if st.out.length + bs.length ≤ st.cap then ⟨st.out ++ bs, st.cap, false⟩
  else ⟨st.out, st.cap, true⟩

/-- POD `operator<<` for `int` against the fallible sink. -/
def encW_int (i : Int) (st : WriterState) : WriterState :=
  writeBytesW (encInt i) st

/-- Optional encoder (serbin.h lines 432-442) against the fallible sink:
flag write, then the payload write only if present. -/
def encW_optional (encP : α → WriterState → WriterState) (object : Option α)
    (st : WriterState) : WriterState :=
  match object with
  | some v => encP v (writeBytesW (encBool true) st)
  | none => writeBytesW (encBool false) st

/-- Vector encoder, non-POD branch (serbin.h lines 144-160), against the
fallible sink: size write, then one payload write per element in order. -/
def encW_vector (encP : α → WriterState → WriterState) (object : List α)
    (st : WriterState) : WriterState :=
  object.foldl (fun s x => encP x s) (writeBytesW (encSize object.length) st)

theorem decBool_cons (b : Nat) (rest : List Nat) :
    decBool ⟨b :: rest, false⟩ = (decide (b ≠ 0), ⟨rest, false⟩) := by
  simp [decBool, readBytes, fromLEBytes]

theorem decSize_cons_zero (rest : List Nat) :
    decSize ⟨encSize 0 ++ rest, false⟩ = (0, ⟨rest, false⟩) := by
  have h := readBytes_exact [0, 0, 0, 0, 0, 0, 0, 0] rest
  rw [show ([0, 0, 0, 0, 0, 0, 0, 0] : List Nat).length = 8 from rfl] at h
  rw [show encSize 0 = [0, 0, 0, 0, 0, 0, 0, 0] from rfl]
  simp only [decSize, decNat, h]
  rfl

theorem bulkBytes_eq_flatten (enc : α → List Nat) (v : List α) :
    bulkBytes enc v = (v.map enc).flatten := by
  induction v with
  | nil => rfl
  | cons x xs ih => simp [bulkBytes, ih]

theorem listLoop_eq_append (dec : ReaderState → α × ReaderState) (n : Nat) :
    ∀ (object : List α) (st : ReaderState),
      listLoop dec n object st =
        (object ++ (listLoop dec n [] st).1, (listLoop dec n [] st).2) := by
  induction n with
  | zero => intro object st; simp [listLoop]
  | succ n ih =>
    intro object st
    simp only [listLoop, List.nil_append]
    rw [ih (object ++ [(dec st).1]), ih [(dec st).1]]
    simp

theorem mem_setInsert (x v : Int) (l : List Int) :
    x ∈ setInsert v l ↔ x = v ∨ x ∈ l := by
  induction l with
  | nil => simp [setInsert]
  | cons y ys ih =>
    simp only [setInsert]
    by_cases h1 : v < y
    · simp [h1]
    · by_cases h2 : v = y
      · subst h2
        have hins : (if v < v then v :: v :: ys else if v = v then v :: ys
            else v :: setInsert v ys) = v :: ys := by
          simp [h1]
        rw [hins, List.mem_cons]
        tauto
      · simp only [if_neg h1, if_neg h2, List.mem_cons, ih]
        tauto

theorem setLoop_mem (dec : ReaderState → Int × ReaderState) (n : Nat) :
    ∀ (object : List Int) (st : ReaderState) (x : Int),
      x ∈ (setLoop dec n object st).1 ↔
        x ∈ object ∨ x ∈ (setLoop dec n [] st).1 := by
  induction n with
  | zero => intro object st x; simp [setLoop]
  | succ n ih =>
    intro object st x
    simp only [setLoop]
    rw [ih (setInsert (dec st).1 object), ih (setInsert (dec st).1 [])]
    rw [mem_setInsert, mem_setInsert]
    simp only [List.not_mem_nil, or_false]
    tauto

theorem mem_mapEmplace_of_mem (kv p : Int × Int) (m : List (Int × Int))
    (h : kv ∈ m) : kv ∈ mapEmplace p m := by
  induction m with
  | nil => cases h
  | cons x xs ih =>
    by_cases h1 : p.1 < x.1
    · simp only [mapEmplace, h1, if_pos, List.mem_cons]
      rcases List.mem_cons.1 h with h2 | h2
      · exact Or.inr (Or.inl h2)
      · exact Or.inr (Or.inr h2)
    · by_cases h2 : p.1 = x.1
      · simpa [mapEmplace, h1, h2] using h
      · simp only [mapEmplace, h1, h2, if_neg, if_false, List.mem_cons]
        rcases List.mem_cons.1 h with h3 | h3
        · exact Or.inl h3
        · exact Or.inr (ih h3)

theorem mapLoop_mem (dec : ReaderState → (Int × Int) × ReaderState) (n : Nat) :
    ∀ (object : List (Int × Int)) (st : ReaderState) (kv : Int × Int),
      kv ∈ object → kv ∈ (mapLoop dec n object st).1 := by
  induction n with
  | zero => intro object st kv h; simpa [mapLoop] using h
  | succ n ih =>
    intro object st kv h
    simp only [mapLoop]
    exact ih _ _ _ (mem_mapEmplace_of_mem kv (dec st).1 object h)

theorem tupleWriteAux_eq_drop (slots : List (List Nat)) (id : Nat) :
    tupleWriteAux slots id = (slots.drop id).flatten := by
  rw [tupleWriteAux]
  by_cases h : id < slots.length
  · rw [dif_pos h, tupleWriteAux_eq_drop slots (id + 1), List.drop_eq_getElem_cons h,
      List.flatten_cons]
  · rw [dif_neg h, List.drop_eq_nil_of_le (by omega)]
    rfl
termination_by slots.length - id

theorem tupleReadAux_eq_foldl (slots : List (ReaderState → ReaderState))
    (id : Nat) (st : ReaderState) :
    tupleReadAux slots id st = (slots.drop id).foldl (fun s d => d s) st := by
  rw [tupleReadAux]
  by_cases h : id < slots.length
  · rw [dif_pos h, tupleReadAux_eq_foldl slots (id + 1), List.drop_eq_getElem_cons h]
    rfl
  · rw [dif_neg h, List.drop_eq_nil_of_le (by omega)]
    rfl
termination_by slots.length - id

theorem writeBytesW_of_fail (bs : List Nat) (st : WriterState)
    (h : st.fail = true) : writeBytesW bs st = st := by
  simp [writeBytesW, h]

theorem encW_optional_of_fail (encP : α → WriterState → WriterState)
    (hp : ∀ v s, s.fail = true → encP v s = s) (object : Option α)
    (st : WriterState) (h : st.fail = true) :
    encW_optional encP object st = st := by
  cases object with
  | none => simp [encW_optional, writeBytesW_of_fail _ _ h]
  | some v =>
    simp only [encW_optional, writeBytesW_of_fail _ _ h]
    exact hp v st h

theorem encW_vector_of_fail (encP : α → WriterState → WriterState)
    (hp : ∀ v s, s.fail = true → encP v s = s) (object : List α)
    (st : WriterState) (h : st.fail = true) :
    encW_vector encP object st = st := by
  simp only [encW_vector, writeBytesW_of_fail _ _ h]
  induction object with
  | nil => rfl
  | cons x xs ih =>
    simp only [List.foldl_cons, hp x st h]
    exact ih

/-- C1: the round trip (encode then decode equals the original under the
shape's natural equality) cannot hold for every value of every supported
shape, because the pointer encoders dereference a null pointer: encoding
the absent `unique_ptr` value writes the false flag and then commits
undefined behaviour, so the round trip is undefined exactly there — while
the one flag byte actually emitted before the dereference would decode
back to the null pointer. -/
theorem serbin_C1_roundtrip_undefined_at_null_pointer :
    (encode_unique_ptr encInt (none : Option Int)).derefNull = true ∧
    (decode_unique_ptr decInt (none : Option Int)
      ⟨(encode_unique_ptr encInt (none : Option Int)).bytes, false⟩).1 = none := by
  exact ⟨rfl, rfl⟩

/-- C2: the claim says encoding a null smart pointer writes one zero flag
byte, no payload, and never dereferences the pointer; the code writes the
zero flag byte but then dereferences the null pointer (`writer << *object`
is unconditional in both overloads), recorded here as `derefNull = true`. -/
theorem serbin_C2_null_pointer_encode_dereferences :
    encode_unique_ptr encInt (none : Option Int) = ⟨[0], true⟩ ∧
    encode_shared_ptr encInt (none : Option Int) = ⟨[0], true⟩ := by
  exact ⟨rfl, rfl⟩

/-- C3 counterexample: decoding a zero presence flag into a `unique_ptr`
that already owns the value 7 leaves it owning 7 — the destination is not
nulled as the claim states. -/
theorem serbin_C3_counterexample :
    (decode_unique_ptr decInt (some (7 : Int)) ⟨[0], false⟩).1 ≠ none := by
  decide

/-- C3 amended: decoding a present flag allocates a fresh payload slot,
decodes into it and hands it to the destination; decoding an absent flag
leaves the destination pointer exactly as it was (it does not null it or
release its prior content) and consumes no payload bytes. Stated for both
smart-pointer decoders with an arbitrary payload decoder `g`. -/
theorem serbin_C3_amended (g : ReaderState → Int × ReaderState)
    (object : Option Int) (rest : List Nat) :
    decode_unique_ptr g object ⟨0 :: rest, false⟩ = (object, ⟨rest, false⟩) ∧
    decode_unique_ptr g object ⟨1 :: rest, false⟩ =
      (some (g ⟨rest, false⟩).1, (g ⟨rest, false⟩).2) ∧
    decode_shared_ptr g object ⟨0 :: rest, false⟩ = (object, ⟨rest, false⟩) ∧
    decode_shared_ptr g object ⟨1 :: rest, false⟩ =
      (some (g ⟨rest, false⟩).1, (g ⟨rest, false⟩).2) := by
  refine ⟨?_, ?_, ?_, ?_⟩ <;>
    simp [decode_unique_ptr, decode_shared_ptr, decBool_cons]

/-- C4 counterexample: decoding a zero presence flag into an engaged
`optional` leaves it engaged with its old value — the destination is not
made absent as the claim states. -/
theorem serbin_C4_counterexample :
    (decode_optional decInt (some (7 : Int)) ⟨[0], false⟩).1 ≠ none := by
  decide

/-- C4 amended: encoding an absent `optional` writes exactly the one flag
byte 0 and no payload bytes; decoding that flag byte leaves the
destination exactly as it was (hence absent only when it was already
absent, e.g. default-constructed) and consumes no further bytes. -/
theorem serbin_C4_amended (object : Option Int) (rest : List Nat) :
    encode_optional encInt (none : Option Int) = [0] ∧
    decode_optional decInt object ⟨0 :: rest, false⟩ = (object, ⟨rest, false⟩) := by
  refine ⟨rfl, ?_⟩
  simp [decode_optional, decBool_cons]

/-- C5 counterexample: decoding a count field of 0 into a vector already
holding the element 5 leaves it holding 5 — the destination is not left
empty as the claim states. -/
theorem serbin_C5_counterexample :
    (decode_vector decInt [(5 : Int)] ⟨encSize 0, false⟩).1 ≠ [] := by
  decide

/-- C5 amended: encoding an empty length-prefixed container writes exactly
the native-size length field with value 0 (eight zero bytes) and no
payload bytes, for every container codec; decoding a count field of 0
leaves the destination container exactly as it was (hence empty when it
was default-constructed) and consumes no additional bytes, for every
container codec. -/
theorem serbin_C5_amended :
    (encode_vector encInt [] = encSize 0 ∧
     encode_vector_pod (toLEBytes 4) [] = encSize 0 ∧
     encode_list encInt [] = encSize 0 ∧
     encode_deque encInt [] = encSize 0 ∧
     encode_set encInt [] = encSize 0 ∧
     encode_map (encode_pair encInt encInt) [] = encSize 0 ∧
     encode_string 1 [] = encSize 0 ∧
     encSize 0 = [0, 0, 0, 0, 0, 0, 0, 0]) ∧
    (∀ (object : List Int) (rest : List Nat),
      decode_vector decInt object ⟨encSize 0 ++ rest, false⟩ = (object, ⟨rest, false⟩)) ∧
    (∀ (object : List Int) (rest : List Nat),
      decode_list decInt object ⟨encSize 0 ++ rest, false⟩ = (object, ⟨rest, false⟩)) ∧
    (∀ (object : List Int) (rest : List Nat),
      decode_deque decInt object ⟨encSize 0 ++ rest, false⟩ = (object, ⟨rest, false⟩)) ∧
    (∀ (object : List Int) (rest : List Nat),
      decode_set decInt object ⟨encSize 0 ++ rest, false⟩ = (object, ⟨rest, false⟩)) ∧
    (∀ (object : List (Int × Int)) (rest : List Nat),
      decode_map (decode_pair decInt decInt) object ⟨encSize 0 ++ rest, false⟩ =
        (object, ⟨rest, false⟩)) ∧
    (∀ (object : List Nat) (rest : List Nat),
      decode_string 1 object ⟨encSize 0 ++ rest, false⟩ = (object, ⟨rest, false⟩)) := by
  refine ⟨⟨rfl, rfl, rfl, rfl, rfl, rfl, rfl, rfl⟩, ?_, ?_, ?_, ?_, ?_, ?_⟩ <;>
    intro object rest <;>
    simp [decode_vector, decode_list, decode_deque, decode_set, decode_map,
      decode_string, decSize_cons_zero, listLoop, setLoop, mapLoop]

/-- C6: for a scalar-eligible element type (width `w` scalar codec), the
bulk byte run the vector encoder writes after the length prefix is
byte-identical to the concatenation, in element order, of the per-element
scalar encodings — so the whole POD-path output equals the length prefix
followed by that concatenation. -/
theorem serbin_C6_bulk_matches_elementwise (w : Nat) (v : List Nat) :
    encode_vector_pod (toLEBytes w) v =
      encSize v.length ++ (v.map (toLEBytes w)).flatten := by
  cases v with
  | nil => rfl
  | cons x xs =>
    simp [encode_vector_pod, bulkBytes_eq_flatten]

/-- C7 counterexample: the encoder output for the vector
`[absent, 456, 7890]` of optional ints is not the byte stream the spec
lists (the spec places each presence flag after its payload and encodes
7890 as `32 1E 00 00`). -/
theorem serbin_C7_counterexample :
    encode_vector (encode_optional encInt)
        [none, some (456 : Int), some (7890 : Int)] ≠
      [3, 0, 0, 0, 0, 0, 0, 0,
       0, 200, 1, 0, 0, 1, 50, 30, 0, 0, 1] := by
  decide

/-- C7 amended: encoding the vector `[absent, 456, 7890]` of optional ints
produces the count `03 00 00 00 00 00 00 00`, then `00` (absent flag),
then `01` (present flag) followed by `C8 01 00 00` (456), then `01`
(present flag) followed by `D2 1E 00 00` (7890): each presence flag
precedes its payload, and 7890 encodes as `D2 1E 00 00`. -/
theorem serbin_C7_actual_bytes :
    encode_vector (encode_optional encInt)
        [none, some (456 : Int), some (7890 : Int)] =
      [3, 0, 0, 0, 0, 0, 0, 0,
       0, 1, 200, 1, 0, 0, 1, 210, 30, 0, 0] := by
  decide

/-- C8: an I/O failure signalled by the channel at any recursive level
surfaces at the top-level call and is never swallowed. Conjuncts: a short
read at the innermost scalar level sets the failure flag; a failed channel
is inert for every further read, for every decode loop whose element
decoder preserves failure, and for the nested vector-of-optional-int
decoder; a mid-stream short read inside the second element of a concrete
two-element decode leaves the top-level result failed; a write beyond the
sink's capacity sets the failure flag; the nested vector-of-optional-int
encoder preserves a failed sink; and a concrete encode whose third write
exceeds the capacity leaves the top-level result failed. -/
theorem serbin_C8_failure_propagates :
    (∀ st : ReaderState, st.fail = false → st.data.length < 4 →
      (decInt st).2.fail = true) ∧
    (∀ (n : Nat) (st : ReaderState), st.fail = true → readBytes n st = ([], st)) ∧
    (∀ (dec : ReaderState → Option Int × ReaderState),
      (∀ s, s.fail = true → (dec s).2.fail = true) →
      ∀ (n : Nat) (st : ReaderState), st.fail = true →
        (decodeLoop dec n st).2.fail = true) ∧
    (∀ (object : List (Option Int)) (st : ReaderState), st.fail = true →
      (decode_vector (decode_optional decInt none) object st).2.fail = true) ∧
    ((decode_vector (decode_optional decInt none) []
      ⟨[2, 0, 0, 0, 0, 0, 0, 0, 1, 200], false⟩).2.fail = true) ∧
    (∀ (bs : List Nat) (st : WriterState), st.fail = false →
      st.cap < st.out.length + bs.length → (writeBytesW bs st).fail = true) ∧
    (∀ (object : List (Option Int)) (st : WriterState), st.fail = true →
      (encW_vector (encW_optional encW_int) object st).fail = true) ∧
    ((encW_vector (encW_optional encW_int) [some (456 : Int), none]
      ⟨[], 10, false⟩).fail = true) := by
  refine ⟨?_, ?_, ?_, ?_, ?_, ?_, ?_, ?_⟩
  · intro st h1 h2
    simp [decInt, decNat, readBytes, h1, Nat.not_le.mpr h2]
  · intro n st h
    simp [readBytes, h]
  · intro dec hdec n
    induction n with
    | zero =>
      intro st h
      simpa [decodeLoop] using h
    | succ n ih =>
      intro st h
      simp only [decodeLoop]
      exact ih _ (hdec st h)
  · intro object st h
    simp [decode_vector, decSize, decNat, readBytes, fromLEBytes, h]
  · decide
  · intro bs st h1 h2
    simp [writeBytesW, h1, Nat.not_le.mpr h2]
  · intro object st h
    have hp : ∀ (v : Option Int) (s : WriterState), s.fail = true →
        encW_optional encW_int v s = s := by
      intro v s hs
      exact encW_optional_of_fail _ (fun i s2 hs2 => writeBytesW_of_fail _ _ hs2) v s hs
    rw [encW_vector_of_fail _ hp object st h]
    exact h
  · decide

/-- Witness for C8: the propagation theorem applied at concrete inputs — a
4-byte scalar read against a 1-byte channel fails, a 3-byte write against
a sink with 1 byte of room left fails, and a decode handed an
already-failed channel stays failed. -/
theorem serbin_C8_witness :
    (decInt ⟨[200], false⟩).2.fail = true ∧
    (writeBytesW [1, 2, 3] ⟨[0], 2, false⟩).fail = true ∧
    (decode_vector (decode_optional decInt none) ([] : List (Option Int))
      ⟨[], true⟩).2.fail = true :=
  ⟨serbin_C8_failure_propagates.1 ⟨[200], false⟩ rfl (by decide),
   serbin_C8_failure_propagates.2.2.2.2.2.1 [1, 2, 3] ⟨[0], 2, false⟩ rfl (by decide),
   serbin_C8_failure_propagates.2.2.2.1 [] ⟨[], true⟩ rfl⟩

/-- C9: pair and tuple are encoded and decoded slot by slot in declared
order with no prefix or separator bytes: the tuple encoder starting at the
default index 0 emits exactly the concatenation of the slot encodings in
order; the index recursion stops as soon as the index reaches the slot
count; the tuple decoder runs the slot decoders sequentially in order; and
the pair encoder is the two slot encodings concatenated. -/
theorem serbin_C9_tuple_positional :
    (∀ slots : List (List Nat), encode_tuple slots = slots.flatten) ∧
    (∀ (slots : List (List Nat)) (id : Nat), slots.length ≤ id →
      tupleWriteAux slots id = []) ∧
    (∀ (slots : List (ReaderState → ReaderState)) (st : ReaderState),
      decode_tuple slots st = slots.foldl (fun s d => d s) st) ∧
    (∀ (e0 e1 : Int → List Nat) (a b : Int),
      encode_pair e0 e1 (a, b) = e0 a ++ e1 b) := by
  refine ⟨?_, ?_, ?_, ?_⟩
  · intro slots
    rw [encode_tuple, tupleWriteAux_eq_drop]
    rfl
  · intro slots id h
    rw [tupleWriteAux_eq_drop, List.drop_eq_nil_of_le h]
    rfl
  · intro slots st
    rw [decode_tuple, tupleReadAux_eq_foldl]
    rfl
  · intro e0 e1 a b
    rfl

/-- Witness for C9: the tuple theorem applied at a concrete two-slot
input, and the termination conjunct applied at the slot count. -/
theorem serbin_C9_witness :
    encode_tuple [[1], [2, 3]] = [1, 2, 3] ∧ tupleWriteAux [[1], [2, 3]] 2 = [] :=
  ⟨(serbin_C9_tuple_positional.1 [[1], [2, 3]]).trans rfl,
   serbin_C9_tuple_positional.2.1 [[1], [2, 3]] 2 (by decide)⟩

/-- C10: decoding a counted stream into a list, deque, set or map that
already has contents does not clear the destination: the list and deque
decoders produce the prior contents followed by the decoded elements, the
set decoder's result has exactly the prior members together with the
decoded members, and every pair already in the map destination is still in
the map decoder's result. -/
theorem serbin_C10_decode_keeps_previous_contents :
    (∀ (dec : ReaderState → Int × ReaderState) (object : List Int) (st : ReaderState),
      decode_list dec object st =
        (object ++ (decode_list dec [] st).1, (decode_list dec [] st).2)) ∧
    (∀ (dec : ReaderState → Int × ReaderState) (object : List Int) (st : ReaderState),
      decode_deque dec object st =
        (object ++ (decode_deque dec [] st).1, (decode_deque dec [] st).2)) ∧
    (∀ (dec : ReaderState → Int × ReaderState) (object : List Int) (st : ReaderState)
      (x : Int), x ∈ (decode_set dec object st).1 ↔
        x ∈ object ∨ x ∈ (decode_set dec [] st).1) ∧
    (∀ (dec : ReaderState → (Int × Int) × ReaderState) (object : List (Int × Int))
      (st : ReaderState) (kv : Int × Int), kv ∈ object →
        kv ∈ (decode_map dec object st).1) := by
  refine ⟨?_, ?_, ?_, ?_⟩
  · intro dec object st
    simp only [decode_list]
    exact listLoop_eq_append dec _ object _
  · intro dec object st
    simp only [decode_deque]
    exact listLoop_eq_append dec _ object _
  · intro dec object st x
    simp only [decode_set]
    exact setLoop_mem dec _ object _ x
  · intro dec object st kv h
    simp only [decode_map]
    exact mapLoop_mem dec _ object _ kv h

/-- Witness for C10: the map conjunct applied at a concrete destination
already holding the pair (3, 4) and a stream with count 0. -/
theorem serbin_C10_witness :
    ((3 : Int), (4 : Int)) ∈
      (decode_map (decode_pair decInt decInt) [((3 : Int), (4 : Int))]
        ⟨encSize 0, false⟩).1 :=
  serbin_C10_decode_keeps_previous_contents.2.2.2 (decode_pair decInt decInt)
    [((3 : Int), (4 : Int))] ⟨encSize 0, false⟩ ((3 : Int), (4 : Int)) (by decide)

end SerBin
